/-
Verification of the PondSec/cloud backend access-control, audit and quota
core against its natural-language specification.

The definitions below are a shallow embedding of the Python source under
`backend/app/`.  Python module/function provenance is given on each
definition.  Database tables are modelled as lists of rows, SQLAlchemy
queries as list filters, wall-clock time as integers, and raising an
`APIError` as returning `Except.error`.
-/

import Mathlib

set_option maxRecDepth 10000

namespace Cloud

/-! ## Data model (backend/app/models.py) -/

/-- `PermissionCode` enum, models.py lines 34-46: the closed catalog of
capability codes. -/
inductive PermissionCode where
  | FILE_READ
  | FILE_WRITE
  | FILE_DELETE
  | SHARE_INTERNAL_MANAGE
  | SHARE_EXTERNAL_MANAGE
  | SHARE_VIEW_RECEIVED
  | OFFICE_USE
  | IDE_USE
  | MEDIA_VIEW
  | USER_MANAGE
  | ROLE_MANAGE
  | SERVER_SETTINGS
  deriving DecidableEq, Repr

/-- The `.value` of each `PermissionCode` member (the Python enum is a
`str` enum whose value equals its name). -/
def PermissionCode.value : PermissionCode → String
  | .FILE_READ => "FILE_READ"
  | .FILE_WRITE => "FILE_WRITE"
  | .FILE_DELETE => "FILE_DELETE"
  | .SHARE_INTERNAL_MANAGE => "SHARE_INTERNAL_MANAGE"
  | .SHARE_EXTERNAL_MANAGE => "SHARE_EXTERNAL_MANAGE"
  | .SHARE_VIEW_RECEIVED => "SHARE_VIEW_RECEIVED"
  | .OFFICE_USE => "OFFICE_USE"
  | .IDE_USE => "IDE_USE"
  | .MEDIA_VIEW => "MEDIA_VIEW"
  | .USER_MANAGE => "USER_MANAGE"
  | .ROLE_MANAGE => "ROLE_MANAGE"
  | .SERVER_SETTINGS => "SERVER_SETTINGS"

/-- `ShareAccessLevel` enum, models.py lines 54-56. -/
inductive ShareAccessLevel where
  | READ
  | WRITE
  deriving DecidableEq, Repr

/-- A `permissions` table row (models.py `Permission`): only `code` and
`name` matter to the access-control logic. -/
structure Permission where
  code : String
  name : String
  deriving DecidableEq, Repr

/-- A `roles` table row (models.py `Role`) with its eagerly-loaded
permission collection. -/
structure Role where
  name : String
  permissions : List Permission
  deriving DecidableEq, Repr

/-- A `users` table row (models.py `User`) with its eagerly-loaded roles.
`bytesLimit`/`bytesUsed` are Python ints (BigInteger columns), modelled
as `Int`. -/
structure User where
  id : Nat
  username : String
  isActive : Bool
  bytesLimit : Int
  bytesUsed : Int
  roles : List Role
  deriving DecidableEq, Repr

/-- `User.has_permission` (models.py lines 146-151): true iff any role of
the user carries a permission row whose `code` equals the argument. -/
def User.has_permission (u : User) (code : String) : Bool :=
  u.roles.any (fun role => role.permissions.any (fun p => p.code == code))

/-- `User.is_admin` property (models.py lines 143-144): membership of the
reserved `admin` role, by role name. -/
def User.is_admin (u : User) : Bool :=
  u.roles.any (fun role => role.name == "admin")

/-- A `file_nodes` row (models.py `FileNode`) restricted to the fields the
access decision walks: `id`, `owner_id` and the `parent` pointer.  The
nullable `parent_id` foreign key is embedded structurally: `root` is a
node with `parent = NULL`, `child` carries its parent node.  The walk in
`_shared_access_level` follows `cursor.parent` until `None`; rows form a
tree, so the chain is finite. -/
inductive FileNode where
  | root (id : Nat) (ownerId : Nat)
  | child (id : Nat) (ownerId : Nat) (parent : FileNode)
  deriving DecidableEq, Repr

def FileNode.id : FileNode → Nat
  | .root i _ => i
  | .child i _ _ => i

def FileNode.ownerId : FileNode → Nat
  | .root _ o => o
  | .child _ o _ => o

/-- An `internal_shares` row (models.py `InternalShare`): resource id,
grantee user id, access level, and the `updated_at` ordering key used by
`_shared_access_level`'s `ORDER BY`. -/
structure InternalShare where
  fileId : Nat
  sharedWithUserId : Nat
  access : ShareAccessLevel
  updatedAt : Nat
  deriving DecidableEq, Repr

/-! ## Access Decision Engine (backend/app/common/rbac.py) -/

/-- `permission_for_node_action` (rbac.py lines 57-63): the
`dict.get` mapping from action keyword to required permission code. -/
def permission_for_node_action (action : String) : Option PermissionCode :=
  if action == "read" then some .FILE_READ
  else if action == "write" then some .FILE_WRITE
  else if action == "delete" then some .FILE_DELETE
  else none

/-- The ancestor-id collection loop of `_shared_access_level`
(rbac.py lines 67-71): the node's own id followed by every ancestor id,
walking parent pointers to the root. -/
def FileNode.ancestorIds : FileNode → List Nat
  | .root i _ => [i]
  | .child i _ p => i :: p.ancestorIds

/-- The `InternalShare.query.filter(...)` of `_shared_access_level`
(rbac.py lines 76-83): rows granted to `user` on the node itself or any
of its ancestors. -/
def matchingShares (shares : List InternalShare) (user : User)
    (node : FileNode) : List InternalShare :=
  shares.filter
    (fun s => s.sharedWithUserId == user.id && node.ancestorIds.contains s.fileId)

/-- `_shared_access_level` (rbac.py lines 66-89).  `shares` is the
`internal_shares` table.  The source orders the matching rows by
`updated_at` descending, which does not affect the result: the level is
`WRITE` iff ANY matching row is `WRITE`, else `READ` if any row
matched, else `None`. -/
def shared_access_level (shares : List InternalShare) (user : User)
    (node : FileNode) : Option ShareAccessLevel :=
  let matching := matchingShares shares user node
  if matching.isEmpty then none
  else if matching.any (fun s => s.access == ShareAccessLevel.WRITE) then
    some ShareAccessLevel.WRITE
  else some ShareAccessLevel.READ

/-- `has_shared_access` (rbac.py lines 92-101). -/
def has_shared_access (shares : List InternalShare) (user : User)
    (node : FileNode) (action : String) : Bool :=
  match shared_access_level shares user node with
  | none => false
  | some level =>
    if action == "read" then true
    else if action == "write" || action == "delete" then
      level == ShareAccessLevel.WRITE
    else false

/-- `can_manage_node` (rbac.py lines 104-115): the access decision.
Permission gate first, then ownership, then admin, then shares. -/
def can_manage_node (shares : List InternalShare) (user : User)
    (node : FileNode) (action : String) : Bool :=
  match permission_for_node_action action with
  | some requiredPermission =>
    if !user.has_permission requiredPermission.value then false
    else if node.ownerId == user.id then true
    else if user.is_admin then true
    else has_shared_access shares user node action
  | none =>
    if node.ownerId == user.id then true
    else if user.is_admin then true
    else has_shared_access shares user node action

/-- `scope_query_to_user` (rbac.py lines 118-123), with the SQLAlchemy
query modelled as the list of `file_nodes` rows it would return:
`query.filter(false())` is the empty list, an unrestricted query is the
whole table, `query.filter(FileNode.owner_id == user.id)` keeps the
user's own rows. -/
def scope_query_to_user (table : List FileNode) (user : User) : List FileNode :=
  if !user.has_permission PermissionCode.FILE_READ.value then []
  else if user.is_admin && user.has_permission PermissionCode.FILE_READ.value then table
  else table.filter (fun n => n.ownerId == user.id)

/-! ## Errors (backend/app/common/errors.py)

`APIError(status_code, code, message)` is the exception every route
raises; a raised error aborts the handler before any later statement
runs. -/

structure APIError where
  status : Nat
  code : String
  message : String
  deriving DecidableEq, Repr

/-! ## Rate limiter (backend/app/common/rate_limit.py)

`SlidingWindowRateLimiter` keeps `self._attempts : dict[str, list[float]]`;
`allow` reads and writes only the entry of its `key`, under the instance
lock, so the state is modelled per key as the list of recorded
timestamps.  Wall-clock instants (`time.time()` floats) are modelled as
integers supplied by the caller. -/

/-- `SlidingWindowRateLimiter.allow` (rate_limit.py lines 38-47) on the
timestamp list of one key: prune entries older than the window, then
either reject (storing only the pruned list) or record `now` and accept.
Returns (accepted, new timestamp list). -/
def SlidingWindowRateLimiter.allow (now : Int) (timestamps : List Int)
    (maxAttempts : Nat) (windowSeconds : Nat) : Bool × List Int :=
  let recent := timestamps.filter (fun value => now - value ≤ (windowSeconds : Int))
  if maxAttempts ≤ recent.length then (false, recent)
  else (true, recent ++ [now])

/-- Folding a sequence of `allow` calls at the given instants over one
key's state, collecting each call's verdict (used to state the 5-in-60
scenario from the spec). -/
def SlidingWindowRateLimiter.allowRun (maxAttempts windowSeconds : Nat) :
    List Int → List Int → List Bool × List Int
  | [], timestamps => ([], timestamps)
  | now :: rest, timestamps =>
    let step := SlidingWindowRateLimiter.allow now timestamps maxAttempts windowSeconds
    let tail := SlidingWindowRateLimiter.allowRun maxAttempts windowSeconds rest step.2
    (step.1 :: tail.1, tail.2)

/-! ## Used-refresh-token registry (backend/app/common/token_store.py) -/

/-- The `UsedRefreshTokenStore._used` dict: jti → expiry (unix seconds),
modelled as an association list. -/
def UsedStore := List (String × Int)

/-- `UsedRefreshTokenStore._cleanup` (token_store.py lines 12-16): drop
every entry whose expiry is ≤ now. -/
def UsedRefreshTokenStore.cleanup (now : Int) (store : UsedStore) : UsedStore :=
  store.filter (fun entry => now < entry.2)

/-- `UsedRefreshTokenStore.was_used` (token_store.py lines 18-21). -/
def UsedRefreshTokenStore.was_used (now : Int) (store : UsedStore)
    (jti : String) : Bool × UsedStore :=
  let cleaned := UsedRefreshTokenStore.cleanup now store
  (cleaned.any (fun entry => entry.1 == jti), cleaned)

/-- `UsedRefreshTokenStore.mark_used` (token_store.py lines 23-26). -/
def UsedRefreshTokenStore.mark_used (now : Int) (store : UsedStore)
    (jti : String) (exp : Int) : UsedStore :=
  let cleaned := UsedRefreshTokenStore.cleanup now store
  cleaned.filter (fun entry => entry.1 != jti) ++ [(jti, exp)]

/-! ## Refresh route (backend/app/auth/routes.py lines 383-396)

The `POST /auth/refresh` handler, as written, only requires a valid
refresh token (`@jwt_required(refresh=True)`) and an existing user, then
returns `{"access_token": ...}`.  It never consults or updates
`used_refresh_tokens` (no call site of `was_used`/`mark_used` exists
anywhere under backend/app), and it does not call
`create_refresh_token`. -/

/-- The claims embedded in the access token minted by `refresh`
(auth/routes.py lines 388-395). -/
structure AccessTokenClaims where
  identity : Nat
  roles : List String
  permissions : List String
  deriving DecidableEq, Repr

/-- The JSON body returned by `refresh`.  The handler builds
`jsonify({"access_token": access_token})`; the absent `refresh_token`
key is modelled as `none`. -/
structure RefreshResponse where
  access_token : AccessTokenClaims
  refresh_token : Option AccessTokenClaims
  deriving DecidableEq, Repr

/-- The `refresh` handler body (auth/routes.py lines 383-396), given the
authenticated user of the presented refresh token and the current
used-token registry.  `jti` and `exp` of the presented token are passed
to show they are ignored: the handler performs no replay check and no
registry write, and issues no new refresh token. -/
def auth.refresh (store : UsedStore) (user : User) (_jti : String)
    (_exp : Int) : Except APIError (RefreshResponse × UsedStore) :=
  Except.ok
    ({ access_token :=
        { identity := user.id
          roles := user.roles.map (fun role => role.name)
          permissions :=
            ((user.roles.flatMap (fun role => role.permissions.map (fun p => p.code))).dedup).mergeSort
              (fun a b => decide (a ≤ b)) }
       refresh_token := none },
     store)

/-! ## Upload quota gate (backend/app/files/routes.py `upload_file`)

The handler, after resolving the destination and validating the name,
runs the size guards of lines 206-246 in order and only then mutates
`owner.bytes_used`.  A raise leaves `bytes_used` untouched.  The result
below pairs the HTTP outcome with the owner's `bytes_used` after the
call. -/

/-- Size and quota decision sequence of `upload_file` (files/routes.py
lines 206-246): empty-file guard (400), max-upload guard (413
UPLOAD_TOO_LARGE), quota guard (413 QUOTA_EXCEEDED), then
`owner.bytes_used += file_size`. -/
def upload_file (bytesUsed bytesLimit maxUploadSize fileSize : Int) :
    Except APIError Unit × Int :=
  if fileSize ≤ 0 then
    (Except.error ⟨400, "INVALID_FILE", "File is empty."⟩, bytesUsed)
  else if maxUploadSize < fileSize then
    (Except.error ⟨413, "UPLOAD_TOO_LARGE", "File exceeds max upload size."⟩, bytesUsed)
  else if bytesLimit < bytesUsed + fileSize then
    (Except.error ⟨413, "QUOTA_EXCEEDED", "User quota exceeded."⟩, bytesUsed)
  else (Except.ok (), bytesUsed + fileSize)

/-! ## Office in-place save (backend/app/office/routes.py
`_write_office_file_data`, lines 143-170) -/

/-- `_write_office_file_data` quota/accounting behaviour: after the 404
guards for a missing storage path or owner, compute
`delta = new_size - old_size`; reject with 413 QUOTA_EXCEEDED when
`delta > 0 and bytes_used + delta > bytes_limit`; otherwise write the
bytes, set `owner.bytes_used = max(0, bytes_used + delta)` and
`node.size = new_size`.  Result: (HTTP outcome, bytes_used after,
node size after). -/
def write_office_file_data (hasStoragePath hasOwner : Bool)
    (bytesUsed bytesLimit oldSize newSize : Int) :
    Except APIError Unit × Int × Int :=
  if !hasStoragePath then
    (Except.error ⟨404, "FILE_MISSING", "Storage path is missing."⟩, bytesUsed, oldSize)
  else if !hasOwner then
    (Except.error ⟨404, "OWNER_NOT_FOUND", "Owner not found."⟩, bytesUsed, oldSize)
  else
    let delta := newSize - oldSize
    if 0 < delta ∧ bytesLimit < bytesUsed + delta then
      (Except.error ⟨413, "QUOTA_EXCEEDED", "Quota exceeded while saving Office document."⟩,
        bytesUsed, oldSize)
    else (Except.ok (), max 0 (bytesUsed + delta), newSize)

/-! ## Delete accounting (backend/app/files/routes.py `delete_node`,
lines 330-343) -/

/-- The per-owner byte decrement loop of `delete_node`: for each owner
with deleted file bytes `size`,
`owner.bytes_used = max(0, owner.bytes_used - size)`. -/
def delete_node_adjust (bytesUsed size : Int) : Int :=
  max 0 (bytesUsed - size)

/-! ## Role deletion (backend/app/admin/routes.py `delete_role`,
lines 186-212) -/

/-- `SYSTEM_ROLE_NAMES` (admin/routes.py line 18). -/
def SYSTEM_ROLE_NAMES : List String := ["admin", "user"]

/-- Python `str.lower()` on the ASCII range (role names are ASCII). -/
def pyLowerChar (c : Char) : Char :=
  if 65 ≤ c.toNat ∧ c.toNat ≤ 90 then Char.ofNat (c.toNat + 32) else c

def pyLower (s : String) : String := String.mk (s.data.map pyLowerChar)

/-- `delete_role` decision sequence (admin/routes.py lines 186-212),
after the `@permission_required(ROLE_MANAGE)` gate: 404 when the role id
resolves to no row, 400 SYSTEM_ROLE_LOCKED for a reserved name, 400
ROLE_IN_USE when `assignedCount` (users currently holding the role) is
positive, otherwise the row is deleted and `{"deleted": true}` is
returned. -/
def delete_role (actorHasRoleManage : Bool) (roleExists : Bool)
    (roleName : String) (assignedCount : Nat) : Except APIError Bool :=
  if !actorHasRoleManage then
    Except.error ⟨403, "FORBIDDEN", "Insufficient permissions."⟩
  else if !roleExists then
    Except.error ⟨404, "ROLE_NOT_FOUND", "Role not found."⟩
  else if SYSTEM_ROLE_NAMES.contains (pyLower roleName) then
    Except.error ⟨400, "SYSTEM_ROLE_LOCKED", "System roles cannot be deleted."⟩
  else if 0 < assignedCount then
    Except.error ⟨400, "ROLE_IN_USE", "Role is still assigned to one or more users."⟩
  else Except.ok true

/-! ## SHA-256 (the `hashlib.sha256(...).hexdigest()` collaborator used by
backend/app/common/audit_hash.py)

FIPS 180-4 SHA-256 over byte sequences, with 32-bit words carried as
`Nat` reduced modulo `2^32`.  Bytes are `Nat` values below 256. -/

namespace SHA256

/-- `2^32`, the word modulus. -/
def wordMod : Nat := 4294967296

/-- Right rotation of a 32-bit word. -/
def rotr (n x : Nat) : Nat := ((x >>> n) ||| (x <<< (32 - n))) % wordMod

def bigSigma0 (x : Nat) : Nat := (rotr 2 x) ^^^ (rotr 13 x) ^^^ (rotr 22 x)

def bigSigma1 (x : Nat) : Nat := (rotr 6 x) ^^^ (rotr 11 x) ^^^ (rotr 25 x)

def smallSigma0 (x : Nat) : Nat := (rotr 7 x) ^^^ (rotr 18 x) ^^^ (x >>> 3)

def smallSigma1 (x : Nat) : Nat := (rotr 17 x) ^^^ (rotr 19 x) ^^^ (x >>> 10)

/-- Choose: `(x ∧ y) ⊕ (¬x ∧ z)`; complement taken on 32 bits. -/
def ch (x y z : Nat) : Nat := (x &&& y) ^^^ ((x ^^^ 4294967295) &&& z)

def maj (x y z : Nat) : Nat := (x &&& y) ^^^ (x &&& z) ^^^ (y &&& z)

/-- The 64 round constants K0..K63 of FIPS 180-4 (decimal). -/
def K : List Nat :=
  [1116352408, 1899447441, 3049323471, 3921009573, 961987163, 1508970993,
   2453635748, 2870763221, 3624381080, 310598401, 607225278, 1426881987,
   1925078388, 2162078206, 2614888103, 3248222580, 3835390401, 4022224774,
   264347078, 604807628, 770255983, 1249150122, 1555081692, 1996064986,
   2554220882, 2821834349, 2952996808, 3210313671, 3336571891, 3584528711,
   113926993, 338241895, 666307205, 773529912, 1294757372, 1396182291,
   1695183700, 1986661051, 2177026350, 2456956037, 2730485921, 2820302411,
   3259730800, 3345764771, 3516065817, 3600352804, 4094571909, 275423344,
   430227734, 506948616, 659060556, 883997877, 958139571, 1322822218,
   1537002063, 1747873779, 1955562222, 2024104815, 2227730452, 2361852424,
   2428436474, 2756734187, 3204031479, 3329325298]

/-- The eight working variables / hash state. -/
structure St where
  a : Nat
  b : Nat
  c : Nat
  d : Nat
  e : Nat
  f : Nat
  g : Nat
  h : Nat
  deriving Repr, DecidableEq

/-- Initial hash value H(0) of FIPS 180-4 (decimal). -/
def initSt : St :=
  ⟨1779033703, 3144134277, 1013904242, 2773480762,
   1359893119, 2600822924, 528734635, 1541459225⟩

/-- `width`-byte big-endian encoding of a number. -/
def beBytes : Nat → Nat → List Nat
  | 0, _ => []
  | w + 1, v => beBytes w (v >>> 8) ++ [v % 256]

/-- Merkle–Damgård padding: append 0x80, zero bytes, and the 64-bit
big-endian bit length, reaching a multiple of 64 bytes. -/
def padMessage (msg : List Nat) : List Nat :=
  let zeros := (64 - ((msg.length + 9) % 64)) % 64
  msg ++ [0x80] ++ List.replicate zeros 0 ++ beBytes 8 (8 * msg.length)

/-- Split into 64-byte blocks.  The fuel argument (initially the byte
count) makes the recursion structural; every step consumes at least one
byte, so the fuel never runs out. -/
def toBlocksFuel : Nat → List Nat → List (List Nat)
  | 0, _ => []
  | _ + 1, [] => []
  | fuel + 1, l => l.take 64 :: toBlocksFuel fuel (l.drop 64)

def toBlocks (l : List Nat) : List (List Nat) := toBlocksFuel l.length l

/-- Big-endian bytes to 32-bit words. -/
def toWords : List Nat → List Nat
  | b0 :: b1 :: b2 :: b3 :: rest =>
    (((b0 * 256 + b1) * 256 + b2) * 256 + b3) :: toWords rest
  | _ => []

/-- One message-schedule extension step appended to the word list. -/
def nextWord (ws : List Nat) : Nat :=
  let n := ws.length
  (smallSigma1 (ws.getD (n - 2) 0) + ws.getD (n - 7) 0 +
    smallSigma0 (ws.getD (n - 15) 0) + ws.getD (n - 16) 0) % wordMod

/-- Extend the 16 block words by `count` scheduled words (48 for
SHA-256). -/
def extendWords (ws : List Nat) : Nat → List Nat
  | 0 => ws
  | n + 1 => extendWords (ws ++ [nextWord ws]) n

/-- One compression round. -/
def round (s : St) (k w : Nat) : St :=
  let t1 := (s.h + bigSigma1 s.e + ch s.e s.f s.g + k + w) % wordMod
  let t2 := (bigSigma0 s.a + maj s.a s.b s.c) % wordMod
  ⟨(t1 + t2) % wordMod, s.a, s.b, s.c, (s.d + t1) % wordMod, s.e, s.f, s.g⟩

/-- Compress one 64-byte block into the running state. -/
def compressBlock (s : St) (block : List Nat) : St :=
  let ws := extendWords (toWords block) 48
  let t := (K.zip ws).foldl (fun acc kw => round acc kw.1 kw.2) s
  ⟨(s.a + t.a) % wordMod, (s.b + t.b) % wordMod, (s.c + t.c) % wordMod,
   (s.d + t.d) % wordMod, (s.e + t.e) % wordMod, (s.f + t.f) % wordMod,
   (s.g + t.g) % wordMod, (s.h + t.h) % wordMod⟩

/-- The 32-byte digest of a byte sequence. -/
def digestBytes (msg : List Nat) : List Nat :=
  let s := (toBlocks (padMessage msg)).foldl compressBlock initSt
  beBytes 4 s.a ++ beBytes 4 s.b ++ beBytes 4 s.c ++ beBytes 4 s.d ++
    beBytes 4 s.e ++ beBytes 4 s.f ++ beBytes 4 s.g ++ beBytes 4 s.h

/-- Lowercase hex digit for a value below 16. -/
def hexDigitChar (n : Nat) : Char :=
  if n < 10 then Char.ofNat (48 + n) else Char.ofNat (87 + n)

/-- Two lowercase hex digits of a byte. -/
def byteToHex (b : Nat) : List Char := [hexDigitChar (b / 16), hexDigitChar (b % 16)]

/-- `hashlib.sha256(msg).hexdigest()`: 64 lowercase hex characters. -/
def hexDigest (msg : List Nat) : String :=
  String.mk ((digestBytes msg).flatMap byteToHex)

end SHA256

/-- UTF-8 encoding of one character (`str.encode("utf-8")`). -/
def utf8Char (c : Char) : List Nat :=
  let n := c.toNat
  if n < 0x80 then [n]
  else if n < 0x800 then [0xc0 ||| (n >>> 6), 0x80 ||| (n &&& 0x3f)]
  else if n < 0x10000 then
    [0xe0 ||| (n >>> 12), 0x80 ||| ((n >>> 6) &&& 0x3f), 0x80 ||| (n &&& 0x3f)]
  else
    [0xf0 ||| (n >>> 18), 0x80 ||| ((n >>> 12) &&& 0x3f),
     0x80 ||| ((n >>> 6) &&& 0x3f), 0x80 ||| (n &&& 0x3f)]

/-- UTF-8 bytes of a string. -/
def utf8Bytes (s : String) : List Nat := s.data.flatMap utf8Char

/-! ## Canonical JSON (backend/app/common/audit_hash.py `canonical_json`)

`json.dumps(value, sort_keys=True, separators=(",", ":"),
ensure_ascii=True, default=_normalize_value)`: object keys sorted by
code-point string order, compact separators, every non-ASCII or control
character escaped.  The values hashed by the audit bus are null, bool,
int, string and string-keyed objects; datetimes have already been
normalized by `_normalize_value` to naive-UTC ISO-8601 strings. -/

mutual

inductive Json where
  | null
  | bool (b : Bool)
  | num (n : Int)
  | str (s : String)
  | arr (items : JsonArr)
  | obj (fields : JsonObj)

inductive JsonArr where
  | nil
  | cons (head : Json) (tail : JsonArr)

inductive JsonObj where
  | nil
  | cons (key : String) (value : Json) (tail : JsonObj)

end

instance : Inhabited Json := ⟨Json.null⟩

/-- Build a JSON object spine from an association list. -/
def JsonObj.ofList : List (String × Json) → JsonObj
  | [] => JsonObj.nil
  | (k, v) :: rest => JsonObj.cons k v (JsonObj.ofList rest)

/-- Four lowercase hex digits (`\uXXXX` escapes). -/
def hex4 (n : Nat) : String :=
  String.mk [SHA256.hexDigitChar ((n >>> 12) &&& 15), SHA256.hexDigitChar ((n >>> 8) &&& 15),
    SHA256.hexDigitChar ((n >>> 4) &&& 15), SHA256.hexDigitChar (n &&& 15)]

/-- ASCII-safe escape of one character, as in CPython's
`json.encoder.py_encode_basestring_ascii`: printable ASCII other than
quote and backslash is literal, the short C escapes are used where they
exist, every other character becomes `\uXXXX` (a surrogate pair beyond
the BMP). -/
def escapeJsonChar (c : Char) : String :=
  let n := c.toNat
  if c = '"' then "\\\""
  else if c = '\\' then "\\\\"
  else if c = '\n' then "\\n"
  else if c = '\r' then "\\r"
  else if c = '\t' then "\\t"
  else if n = 8 then "\\b"
  else if n = 12 then "\\f"
  else if n < 0x20 then "\\u" ++ hex4 n
  else if n < 0x7f then String.singleton c
  else if n < 0x10000 then "\\u" ++ hex4 n
  else
    "\\u" ++ hex4 (0xd800 + ((n - 0x10000) >>> 10)) ++
      "\\u" ++ hex4 (0xdc00 + ((n - 0x10000) &&& 0x3ff))

/-- JSON string literal with ASCII-safe escaping. -/
def quoteJsonString (s : String) : String :=
  "\"" ++ String.join (s.data.map escapeJsonChar) ++ "\""

/-- Python `str` ordering: lexicographic comparison of code-point
sequences. -/
def codePointLt : List Char → List Char → Bool
  | [], [] => false
  | [], _ :: _ => true
  | _ :: _, [] => false
  | a :: as, b :: bs =>
    if a.toNat < b.toNat then true
    else if b.toNat < a.toNat then false
    else codePointLt as bs

def keyLt (a b : String) : Bool := codePointLt a.data b.data

/-- Stable ascending insertion by key (Python `sorted` on `str` keys,
which compares by code point). -/
def insertField (kv : String × String) : List (String × String) → List (String × String)
  | [] => [kv]
  | head :: tail => if keyLt kv.1 head.1 then kv :: head :: tail else head :: insertField kv tail

def sortFields : List (String × String) → List (String × String)
  | [] => []
  | kv :: rest => insertField kv (sortFields rest)

mutual

/-- `canonical_json` rendering (audit_hash.py lines 22-42): compact
separators, sorted keys, ASCII-safe strings. -/
def Json.dumps : Json → String
  | .null => "null"
  | .bool b => if b then "true" else "false"
  | .num n => toString n
  | .str s => quoteJsonString s
  | .arr items => "[" ++ String.intercalate "," (JsonArr.dumpsList items) ++ "]"
  | .obj fields =>
    "\x7b" ++
      String.intercalate ","
        ((sortFields (JsonObj.renderFields fields)).map
          (fun kv => quoteJsonString kv.1 ++ ":" ++ kv.2)) ++
      "\x7d"
termination_by structural j => j

def JsonArr.dumpsList : JsonArr → List String
  | .nil => []
  | .cons j rest => Json.dumps j :: JsonArr.dumpsList rest
termination_by structural l => l

def JsonObj.renderFields : JsonObj → List (String × String)
  | .nil => []
  | .cons k v rest => (k, Json.dumps v) :: JsonObj.renderFields rest
termination_by structural l => l

end

/-- `canonical_json` (audit_hash.py lines 22-42). -/
def canonical_json (value : Json) : String := Json.dumps value

/-! ## Audit hash chain (backend/app/common/audit_hash.py,
backend/app/common/audit_bus.py) -/

/-- `GENESIS_HASH = "0" * 64` (audit_hash.py line 9). -/
def GENESIS_HASH : String :=
  "0000000000000000000000000000000000000000000000000000000000000000"

/-- The ASCII whitespace characters removed by Python `str.strip()`:
space, tab, newline, carriage return, vertical tab, form feed. -/
def pyWhitespace (c : Char) : Bool :=
  c == ' ' || c == '\t' || c == '\n' || c == '\r' || c.toNat == 11 || c.toNat == 12

/-- Python `str.strip()` with no argument: drop leading and trailing
whitespace. -/
def pyStrip (s : String) : String :=
  String.mk (((s.data.dropWhile pyWhitespace).reverse.dropWhile pyWhitespace).reverse)

/-- `compute_event_hash` (audit_hash.py lines 45-49):
`sha256((prev or GENESIS).strip() + "\n" + canonical_json(payload))`
hex digest; an empty (falsy) previous hash falls back to the genesis
value. -/
def compute_event_hash (prevHash : String) (payload : Json) : String :=
  let normalizedPrev := pyStrip (if prevHash == "" then GENESIS_HASH else prevHash)
  SHA256.hexDigest (utf8Bytes (normalizedPrev ++ "\n" ++ canonical_json payload))

/-- The ten stored fields hashed for one event
(`AuditBus._event_hash_payload`, audit_bus.py lines 37-49).  `ts` holds
the `_normalize_value` image of the timestamp: the naive-UTC ISO-8601
string. -/
structure EventPayload where
  ts : String
  actorUserId : Option Int
  actorIp : Option String
  userAgent : Option String
  action : String
  entityType : Option String
  entityId : Option String
  metadata : List (String × Json)
  severity : String
  success : Bool
  deriving Inhabited

def optStr : Option String → Json
  | none => Json.null
  | some s => Json.str s

def optInt : Option Int → Json
  | none => Json.null
  | some n => Json.num n

/-- The payload dict passed to `compute_event_hash`, in the literal key
order of `_event_hash_payload` (keys are sorted by `canonical_json`). -/
def EventPayload.toJson (p : EventPayload) : Json :=
  Json.obj (JsonObj.ofList
    [("ts", Json.str p.ts),
     ("actor_user_id", optInt p.actorUserId),
     ("actor_ip", optStr p.actorIp),
     ("user_agent", optStr p.userAgent),
     ("action", Json.str p.action),
     ("entity_type", optStr p.entityType),
     ("entity_id", optStr p.entityId),
     ("metadata", Json.obj (JsonObj.ofList p.metadata)),
     ("severity", Json.str p.severity),
     ("success", Json.bool p.success)])

/-- An `audit_events` row: the hashed fields plus the stored chain
columns. -/
structure AuditEvent where
  payload : EventPayload
  prevHash : String
  eventHash : String
  deriving Inhabited

/-- `AuditBus._last_event_hash` (audit_bus.py lines 30-34): the newest
row's `event_hash`, or the genesis value when the table is empty or the
stored hash is empty. -/
def last_event_hash (events : List AuditEvent) : String :=
  match events.getLast? with
  | none => GENESIS_HASH
  | some e => if e.eventHash == "" then GENESIS_HASH else e.eventHash

/-- Outcome of `db.session.flush` for the attempted audit insert.
`otherError` stands for any exception outside the caught
`(OperationalError, ProgrammingError)` tuple — e.g.
`sqlalchemy.exc.IntegrityError`. -/
inductive FlushOutcome where
  | ok
  | operationalError
  | programmingError
  | otherError
  deriving DecidableEq, Repr

/-- `AuditBus.emit` (audit_bus.py lines 53-118).  Returns the Python
outcome — `Except.error` models an uncaught exception propagating to the
caller — paired with the audit table after the call.  Guards: feature
flag off or blank action return `None` without touching the table.
Otherwise the record is hashed against `_last_event_hash` and flushed:
on success it is appended; on `OperationalError`/`ProgrammingError` it
is expunged and `None` returned; any other exception escapes. -/
def AuditBus.emit (flagEnabled : Bool) (events : List AuditEvent)
    (p : EventPayload) (flush : FlushOutcome) :
    Except String (Option AuditEvent) × List AuditEvent :=
  if !flagEnabled then (Except.ok none, events)
  else if p.action == "" then (Except.ok none, events)
  else
    match flush with
    | .ok =>
      let prev := last_event_hash events
      let event : AuditEvent :=
        { payload := p, prevHash := prev,
          eventHash := compute_event_hash prev p.toJson }
      (Except.ok (some event), events ++ [event])
    | .operationalError => (Except.ok none, events)
    | .programmingError => (Except.ok none, events)
    | .otherError =>
      (Except.error "uncaught exception propagates to the caller", events)

/-- The legacy `audit(...)` helper (backend/app/common/audit.py lines
29-76): same storage behaviour without hash chaining — flush inside a
savepoint, catch only `OperationalError`/`ProgrammingError`, expunge and
return `None` on those, let anything else escape. -/
def audit_log (p : EventPayload) (flush : FlushOutcome) :
    Except String (Option EventPayload) :=
  match flush with
  | .ok => Except.ok (some p)
  | .operationalError => Except.ok none
  | .programmingError => Except.ok none
  | .otherError => Except.error "uncaught exception propagates to the caller"

/-- A sequence of `AuditBus.emit` calls (flag state, payload, storage
outcome per call) against the audit table. -/
def AuditBus.emitRun : List (Bool × EventPayload × FlushOutcome) →
    List AuditEvent → List AuditEvent
  | [], events => events
  | (flag, p, flush) :: rest, events =>
    AuditBus.emitRun rest (AuditBus.emit flag events p flush).2

/-- The replay loop of `test_audit_chain.py`
(`test_audit_events_are_hash_chained_when_enabled`): walking the table
from the genesis value, check each row's stored `prev_hash` and its
recomputed `event_hash`, then advance with the stored hash. -/
def chainValid (prev : String) : List AuditEvent → Bool
  | [] => true
  | e :: rest =>
    e.prevHash == prev &&
      e.eventHash == compute_event_hash prev e.payload.toJson &&
      chainValid e.eventHash rest

/-- Sequential recomputation of the chain hashes from a starting value
over the stored payload fields (the "replaying from genesis" of the
spec). -/
def recomputeHashes (prev : String) : List EventPayload → List String
  | [] => []
  | p :: rest =>
    let h := compute_event_hash prev p.toJson
    h :: recomputeHashes h rest

/-- The stored `event_hash` column of a table of audit rows. -/
def storedHashes (events : List AuditEvent) : List String :=
  events.map (fun e => e.eventHash)

/-- The stored hashed fields of a table of audit rows. -/
def storedPayloads (events : List AuditEvent) : List EventPayload :=
  events.map (fun e => e.payload)

/-- The running tip of a chain: the last row's stored `event_hash`, or
the starting value for an empty table (proof helper mirroring
`_last_event_hash` without the empty-string fallback). -/
def chainTip (g : String) : List AuditEvent → String
  | [] => g
  | e :: rest => chainTip e.eventHash rest

/-- The audit table produced by a sequence of emissions against an
initially empty table. -/
def emittedEvents (run : List (Bool × EventPayload × FlushOutcome)) : List AuditEvent :=
  AuditBus.emitRun run []

/-- Two small concrete emissions used to instantiate the chain
theorems. -/
def demoPayloadA : EventPayload :=
  ⟨"2026-02-14T12:00:00", some 1, none, none, "files.upload", some "file_node",
    some "7", [("size", Json.num 5)], "info", true⟩

def demoPayloadB : EventPayload :=
  ⟨"2026-02-14T12:00:05", some 1, none, none, "files.delete", some "file_node",
    some "7", [], "warning", true⟩

/-- A mutation of `demoPayloadA`: the stored action field edited
out-of-band. -/
def demoPayloadTampered : EventPayload :=
  ⟨"2026-02-14T12:00:00", some 1, none, none, "files.read", some "file_node",
    some "7", [("size", Json.num 5)], "info", true⟩

def demoRun : List (Bool × EventPayload × FlushOutcome) :=
  [(true, demoPayloadA, FlushOutcome.ok), (true, demoPayloadB, FlushOutcome.ok)]

/-! ## Theorems -/

/-- C1: for every (user, resource, action) with action in
read/write/delete, if the user's role set lacks the permission code
mapped to the action (read→FILE_READ, write→FILE_WRITE,
delete→FILE_DELETE), then `can_manage_node` returns false — for every
share table, every owner and every role set, so regardless of
ownership, admin status or internal shares on the resource or its
ancestors. -/
theorem permission_gate_denies_without_mapped_permission
    (shares : List InternalShare) (user : User) (node : FileNode) :
    (user.has_permission "FILE_READ" = false →
      can_manage_node shares user node "read" = false) ∧
    (user.has_permission "FILE_WRITE" = false →
      can_manage_node shares user node "write" = false) ∧
    (user.has_permission "FILE_DELETE" = false →
      can_manage_node shares user node "delete" = false) := by
  refine ⟨fun h => ?_, fun h => ?_, fun h => ?_⟩ <;>
    simp [can_manage_node, permission_for_node_action, PermissionCode.value, h]

/-- C1 witness: a user who owns the resource, sits in the reserved
`admin` role and holds a WRITE share on the resource is still denied all
three actions because the role carries no permission rows. -/
theorem permission_gate_denies_without_mapped_permission_witness :
    can_manage_node [⟨1, 7, ShareAccessLevel.WRITE, 0⟩]
      ⟨7, "eve", true, 0, 0, [⟨"admin", []⟩]⟩ (FileNode.root 1 7) "read" = false :=
  (permission_gate_denies_without_mapped_permission
      [⟨1, 7, ShareAccessLevel.WRITE, 0⟩]
      ⟨7, "eve", true, 0, 0, [⟨"admin", []⟩]⟩ (FileNode.root 1 7)).1 (by decide)

/-- C8: `scope_query_to_user` returns the empty result set when the
user lacks FILE_READ, the unrestricted query for an admin holding
FILE_READ, and otherwise only the rows owned by the user. -/
theorem scope_query_restricts_listing (table : List FileNode) (user : User) :
    (user.has_permission "FILE_READ" = false →
      scope_query_to_user table user = []) ∧
    (user.is_admin = true → user.has_permission "FILE_READ" = true →
      scope_query_to_user table user = table) ∧
    (user.is_admin = false → user.has_permission "FILE_READ" = true →
      scope_query_to_user table user = table.filter (fun n => n.ownerId == user.id)) := by
  refine ⟨fun h => ?_, fun ha h => ?_, fun ha h => ?_⟩
  · simp [scope_query_to_user, PermissionCode.value, h]
  · simp [scope_query_to_user, PermissionCode.value, h, ha]
  · simp [scope_query_to_user, PermissionCode.value, h, ha]

/-- C8 witness: a non-admin reader sees exactly their own rows; shared
rows of other owners are not merged in. -/
theorem scope_query_restricts_listing_witness :
    scope_query_to_user [FileNode.root 1 3, FileNode.root 2 4]
      ⟨3, "amy", true, 0, 0, [⟨"user", [⟨"FILE_READ", "Read files"⟩]⟩]⟩ =
      [FileNode.root 1 3] :=
  ((scope_query_restricts_listing [FileNode.root 1 3, FileNode.root 2 4]
      ⟨3, "amy", true, 0, 0, [⟨"user", [⟨"FILE_READ", "Read files"⟩]⟩]⟩).2.2
    (by decide) (by decide)).trans (by decide)

/-- C2: for a non-owner, non-admin user holding the required
permission, a WRITE `InternalShare` on the resource or any ancestor
grants read, write and delete — even when a different (possibly nearer)
ancestor share for the same user grants only READ, since the level is
the most permissive over all matching rows; when every matching share
is READ, only the read action is allowed; with no matching share on any
ancestor, access is denied. -/
theorem share_write_on_any_ancestor_wins
    (shares : List InternalShare) (user : User) (node : FileNode)
    (hown : (node.ownerId == user.id) = false) (hadmin : user.is_admin = false) :
    ((matchingShares shares user node).any
        (fun s => s.access == ShareAccessLevel.WRITE) = true →
      (user.has_permission "FILE_READ" = true →
        can_manage_node shares user node "read" = true) ∧
      (user.has_permission "FILE_WRITE" = true →
        can_manage_node shares user node "write" = true) ∧
      (user.has_permission "FILE_DELETE" = true →
        can_manage_node shares user node "delete" = true)) ∧
    (matchingShares shares user node ≠ [] →
      (matchingShares shares user node).any
        (fun s => s.access == ShareAccessLevel.WRITE) = false →
      (user.has_permission "FILE_READ" = true →
        can_manage_node shares user node "read" = true) ∧
      can_manage_node shares user node "write" = false ∧
      can_manage_node shares user node "delete" = false) ∧
    (matchingShares shares user node = [] →
      can_manage_node shares user node "read" = false ∧
      can_manage_node shares user node "write" = false ∧
      can_manage_node shares user node "delete" = false) := by
  refine ⟨fun hw => ?_, fun hne hw => ?_, fun hm => ?_⟩
  · have hemp : (matchingShares shares user node).isEmpty = false := by
      cases hmm : matchingShares shares user node with
      | nil => rw [hmm] at hw; simp at hw
      | cons a l => simp
    have hsal : shared_access_level shares user node = some ShareAccessLevel.WRITE := by
      simp [shared_access_level, hemp, hw]
    refine ⟨fun hp => ?_, fun hp => ?_, fun hp => ?_⟩ <;>
      simp [can_manage_node, permission_for_node_action, PermissionCode.value, hp,
        hown, hadmin, has_shared_access, hsal]
  · have hemp : (matchingShares shares user node).isEmpty = false := by
      cases hmm : matchingShares shares user node with
      | nil => exact absurd hmm hne
      | cons a l => simp
    have hsal : shared_access_level shares user node = some ShareAccessLevel.READ := by
      simp [shared_access_level, hemp, hw]
    refine ⟨fun hp => ?_, ?_, ?_⟩
    · simp [can_manage_node, permission_for_node_action, PermissionCode.value, hp,
        hown, hadmin, has_shared_access, hsal]
    · cases hp : user.has_permission "FILE_WRITE" <;>
        simp [can_manage_node, permission_for_node_action, PermissionCode.value, hp,
          hown, hadmin, has_shared_access, hsal]
    · cases hp : user.has_permission "FILE_DELETE" <;>
        simp [can_manage_node, permission_for_node_action, PermissionCode.value, hp,
          hown, hadmin, has_shared_access, hsal]
  · have hsal : shared_access_level shares user node = none := by
      simp [shared_access_level, hm]
    refine ⟨?_, ?_, ?_⟩
    · cases hp : user.has_permission "FILE_READ" <;>
        simp [can_manage_node, permission_for_node_action, PermissionCode.value, hp,
          hown, hadmin, has_shared_access, hsal]
    · cases hp : user.has_permission "FILE_WRITE" <;>
        simp [can_manage_node, permission_for_node_action, PermissionCode.value, hp,
          hown, hadmin, has_shared_access, hsal]
    · cases hp : user.has_permission "FILE_DELETE" <;>
        simp [can_manage_node, permission_for_node_action, PermissionCode.value, hp,
          hown, hadmin, has_shared_access, hsal]

/-- C2 witness: user 5 holds file permissions but neither owns node 2
nor is admin; the node itself carries a more recently updated READ
share while its parent folder carries a WRITE share — the WRITE on the
farther ancestor wins and the write action is allowed. -/
theorem share_write_on_any_ancestor_wins_witness :
    can_manage_node
      [⟨2, 5, ShareAccessLevel.READ, 10⟩, ⟨1, 5, ShareAccessLevel.WRITE, 5⟩]
      ⟨5, "bob", true, 0, 0,
        [⟨"user", [⟨"FILE_READ", "r"⟩, ⟨"FILE_WRITE", "w"⟩, ⟨"FILE_DELETE", "d"⟩]⟩]⟩
      (FileNode.child 2 9 (FileNode.root 1 9)) "write" = true :=
  ((share_write_on_any_ancestor_wins
      [⟨2, 5, ShareAccessLevel.READ, 10⟩, ⟨1, 5, ShareAccessLevel.WRITE, 5⟩]
      ⟨5, "bob", true, 0, 0,
        [⟨"user", [⟨"FILE_READ", "r"⟩, ⟨"FILE_WRITE", "w"⟩, ⟨"FILE_DELETE", "d"⟩]⟩]⟩
      (FileNode.child 2 9 (FileNode.root 1 9))
      (by decide) (by decide)).1 (by decide)).2.1 (by decide)

/-- C7: `allow` prunes each key's window and then atomically
checks-and-records: at or above the limit it rejects and records no new
timestamp (the stored list is exactly the pruned one); below the limit
it accepts and appends the current instant.  With max_attempts=5 and
window=60, five calls inside the window are accepted, the sixth is
rejected, and a call after the window has elapsed past the earlier
timestamps is accepted again. -/
theorem sliding_window_allow_checks_and_records
    (now : Int) (timestamps : List Int) (maxAttempts windowSeconds : Nat) :
    (maxAttempts ≤ (timestamps.filter (fun v => now - v ≤ (windowSeconds : Int))).length →
      SlidingWindowRateLimiter.allow now timestamps maxAttempts windowSeconds =
        (false, timestamps.filter (fun v => now - v ≤ (windowSeconds : Int)))) ∧
    ((timestamps.filter (fun v => now - v ≤ (windowSeconds : Int))).length < maxAttempts →
      SlidingWindowRateLimiter.allow now timestamps maxAttempts windowSeconds =
        (true, timestamps.filter (fun v => now - v ≤ (windowSeconds : Int)) ++ [now])) ∧
    SlidingWindowRateLimiter.allowRun 5 60 [0, 10, 20, 30, 40, 50, 120] [] =
      ([true, true, true, true, true, false, true], [120]) := by
  refine ⟨fun h => ?_, fun h => ?_, by decide⟩
  · unfold SlidingWindowRateLimiter.allow
    rw [if_pos h]
  · unfold SlidingWindowRateLimiter.allow
    rw [if_neg (by omega)]

/-- C7 witness: at the limit of 3 attempts, a call with three in-window
timestamps is rejected and the stored list is the pruned window with no
new timestamp. -/
theorem sliding_window_allow_checks_and_records_witness :
    SlidingWindowRateLimiter.allow 100 [50, 60, 99] 3 60 = (false, [50, 60, 99]) :=
  ((sliding_window_allow_checks_and_records 100 [50, 60, 99] 3 60).1 (by decide)).trans
    (by decide)

/-- C5: a write that would push bytes_used above bytes_limit is
rejected with 413 QUOTA_EXCEEDED and bytes_used is unchanged: for
uploads (of valid size, i.e. positive and within the max-upload guard
that precedes the quota check) and for in-place office saves (from any
state satisfying the documented `bytes_used ≤ bytes_limit` invariant).
An upload of exactly the remaining quota succeeds and leaves bytes_used
equal to bytes_limit. -/
theorem quota_exceeded_rejected_state_unchanged
    (used limit maxUp size old new : Int) :
    (0 < size → size ≤ maxUp → limit < used + size →
      upload_file used limit maxUp size =
        (Except.error ⟨413, "QUOTA_EXCEEDED", "User quota exceeded."⟩, used)) ∧
    (0 < size → size ≤ maxUp → used + size = limit →
      upload_file used limit maxUp size = (Except.ok (), limit)) ∧
    (used ≤ limit → limit < used + (new - old) →
      write_office_file_data true true used limit old new =
        (Except.error
          ⟨413, "QUOTA_EXCEEDED", "Quota exceeded while saving Office document."⟩,
          used, old)) := by
  refine ⟨fun h1 h2 h3 => ?_, fun h1 h2 h3 => ?_, fun h1 h2 => ?_⟩
  · unfold upload_file
    rw [if_neg (by omega), if_neg (by omega), if_pos h3]
  · unfold upload_file
    rw [if_neg (by omega), if_neg (by omega), if_neg (by omega), h3]
  · have hd : (0 : Int) < new - old := by omega
    simp only [write_office_file_data, Bool.not_true, Bool.false_eq_true, if_false]
    rw [if_pos ⟨hd, h2⟩]

/-- C5 witness: with 90 of 100 bytes used, an 11-byte upload is
rejected leaving 90 used, a 10-byte upload succeeds leaving exactly
100, and an office save growing a document from 5 to 20 bytes is
rejected leaving 90 used. -/
theorem quota_exceeded_rejected_state_unchanged_witness :
    upload_file 90 100 1000 11 =
      (Except.error ⟨413, "QUOTA_EXCEEDED", "User quota exceeded."⟩, 90) ∧
    upload_file 90 100 1000 10 = (Except.ok (), 100) ∧
    write_office_file_data true true 90 100 5 20 =
      (Except.error
        ⟨413, "QUOTA_EXCEEDED", "Quota exceeded while saving Office document."⟩,
        90, 5) :=
  ⟨(quota_exceeded_rejected_state_unchanged 90 100 1000 11 0 0).1
      (by decide) (by decide) (by decide),
   (quota_exceeded_rejected_state_unchanged 90 100 1000 10 0 0).2.1
      (by decide) (by decide) (by decide),
   (quota_exceeded_rejected_state_unchanged 90 100 1000 0 5 20).2.2
      (by decide) (by decide)⟩

/-- C10: bytes_used never becomes negative through upload, tree
deletion or office save: from any non-negative starting value, the
value stored after each operation (the clamped `max(0, ...)` for delete
and office save, the guarded increment for upload) is non-negative. -/
theorem bytes_used_stays_nonnegative
    (used limit maxUp size old new ds : Int) (h : 0 ≤ used) :
    0 ≤ (upload_file used limit maxUp size).2 ∧
    0 ≤ delete_node_adjust used ds ∧
    0 ≤ (write_office_file_data true true used limit old new).2.1 := by
  refine ⟨?_, ?_, ?_⟩
  · unfold upload_file
    split
    · simpa using h
    · split
      · simpa using h
      · split
        · simpa using h
        · rename_i h1 h2 h3
          simp only []
          omega
  · unfold delete_node_adjust
    exact le_max_left 0 (used - ds)
  · unfold write_office_file_data
    simp only [Bool.not_true, Bool.false_eq_true, if_false]
    split
    · simpa using h
    · simp only []
      exact le_max_left 0 (used + (new - old))

/-- C10 witness: concrete instances of all three operations keep
bytes_used non-negative, including a delete larger than the current
counter. -/
theorem bytes_used_stays_nonnegative_witness :
    0 ≤ (upload_file 5 10 100 3).2 ∧
    0 ≤ delete_node_adjust 5 9 ∧
    0 ≤ (write_office_file_data true true 5 10 8 2).2.1 :=
  bytes_used_stays_nonnegative 5 10 100 3 8 2 9 (by decide)

/-- C9 counterexample: a deletion request for the non-reserved role
"temp" currently held by one user fails with `ROLE_IN_USE` at HTTP
status 400, not the 409 the claim asserts for this conflict. -/
theorem role_in_use_http_status_counterexample :
    delete_role true true "temp" 1 =
      Except.error ⟨400, "ROLE_IN_USE", "Role is still assigned to one or more users."⟩ ∧
    (400 : Nat) ≠ 409 :=
  ⟨rfl, by decide⟩

/-- C9 (amended): for an authorized actor and an existing non-reserved
role, deletion fails with `ROLE_IN_USE` — reported with HTTP status 400
— whenever the role is still assigned to at least one user, and
succeeds when it is assigned to none. -/
theorem delete_role_in_use_gate (name : String) (count : Nat)
    (hres : SYSTEM_ROLE_NAMES.contains (pyLower name) = false) :
    (0 < count → delete_role true true name count =
      Except.error ⟨400, "ROLE_IN_USE", "Role is still assigned to one or more users."⟩) ∧
    (count = 0 → delete_role true true name count = Except.ok true) := by
  have hmem : pyLower name ∉ SYSTEM_ROLE_NAMES := by simpa using hres
  refine ⟨fun h => ?_, fun h => ?_⟩ <;> simp [delete_role, hmem, h]

/-- C9 witness: deleting "temp" with three holders fails with
ROLE_IN_USE/400; deleting it with zero holders succeeds. -/
theorem delete_role_in_use_gate_witness :
    delete_role true true "temp" 3 =
      Except.error ⟨400, "ROLE_IN_USE", "Role is still assigned to one or more users."⟩ ∧
    delete_role true true "temp" 0 = Except.ok true :=
  ⟨(delete_role_in_use_gate "temp" 3 (by decide)).1 (by decide),
   (delete_role_in_use_gate "temp" 0 (by decide)).2 (by decide)⟩

/-- C4: the `POST /auth/refresh` handler, as implemented, returns only
a new access token: the response carries no new refresh token, the
used-refresh-token registry is left untouched (no call site of
`was_used`/`mark_used` exists), and redeeming the very same refresh
token a second time succeeds identically instead of failing with
`TOKEN_REUSED`/401.  This documents the code's divergence from the
rotation/replay-detection behaviour that `test_auth.py`'s
`test_refresh_token_rotation_and_reuse_blocked` expects. -/
theorem refresh_route_performs_no_rotation
    (store : UsedStore) (user : User) (jti : String) (exp : Int) :
    ∃ response,
      auth.refresh store user jti exp = Except.ok (response, store) ∧
      response.refresh_token = none ∧
      auth.refresh store user jti exp = Except.ok (response, store) :=
  ⟨_, rfl, rfl, rfl⟩

/-- C6 counterexample: a storage failure outside the caught
`(OperationalError, ProgrammingError)` tuple — e.g. an IntegrityError —
escapes `AuditBus.emit` to its caller, so emission can raise. -/
theorem audit_emit_uncaught_failure_counterexample :
    (AuditBus.emit true []
      ⟨"2026-02-14T12:00:00", some 1, none, none, "files.delete", some "file_node",
        some "9", [], "info", true⟩
      FlushOutcome.otherError).1 =
      Except.error "uncaught exception propagates to the caller" := rfl

/-- C6 (amended): on the storage failures the emitters actually catch —
`OperationalError` and `ProgrammingError` — `AuditBus.emit` and the
legacy `audit` helper return None without raising, and the attempted
record is discarded (the audit table is unchanged); other exception
types propagate. -/
theorem audit_emit_swallows_caught_failures
    (flag : Bool) (events : List AuditEvent) (p : EventPayload)
    (flush : FlushOutcome)
    (h : flush = FlushOutcome.operationalError ∨ flush = FlushOutcome.programmingError) :
    AuditBus.emit flag events p flush = (Except.ok none, events) ∧
    audit_log p flush = Except.ok none := by
  rcases h with h | h <;> subst h <;>
    refine ⟨?_, rfl⟩ <;> unfold AuditBus.emit <;> cases flag <;> simp

/-- C6 witness: an OperationalError flush failure on a concrete
emission returns None and leaves the (empty) audit table unchanged. -/
theorem audit_emit_swallows_caught_failures_witness :
    AuditBus.emit true []
      ⟨"2026-02-14T12:00:00", some 1, none, none, "files.delete", some "file_node",
        some "9", [], "info", true⟩
      FlushOutcome.operationalError = (Except.ok none, []) ∧
    audit_log
      ⟨"2026-02-14T12:00:00", some 1, none, none, "files.delete", some "file_node",
        some "9", [], "info", true⟩
      FlushOutcome.operationalError = Except.ok none :=
  audit_emit_swallows_caught_failures true [] _ _ (Or.inl rfl)

/-! ### Hash-chain helper lemmas -/

lemma beBytes_length (w : Nat) : ∀ v : Nat, (SHA256.beBytes w v).length = w := by
  induction w with
  | zero => intro v; rfl
  | succ n ih => intro v; simp [SHA256.beBytes, ih]

lemma digestBytes_length (msg : List Nat) : (SHA256.digestBytes msg).length = 32 := by
  simp [SHA256.digestBytes, beBytes_length]

lemma flatMap_byteToHex_length (l : List Nat) :
    (l.flatMap SHA256.byteToHex).length = 2 * l.length := by
  induction l with
  | nil => rfl
  | cons b t ih =>
    simp only [List.flatMap_cons, List.length_append, List.length_cons, ih,
      SHA256.byteToHex, List.length_nil]
    omega

lemma hexDigest_length (msg : List Nat) : (SHA256.hexDigest msg).length = 64 := by
  show ((SHA256.digestBytes msg).flatMap SHA256.byteToHex).length = 64
  rw [flatMap_byteToHex_length, digestBytes_length]

lemma compute_event_hash_length (prev : String) (j : Json) :
    (compute_event_hash prev j).length = 64 := by
  unfold compute_event_hash
  exact hexDigest_length _

lemma compute_event_hash_ne_empty (prev : String) (j : Json) :
    compute_event_hash prev j ≠ "" := by
  intro h
  have h64 := compute_event_hash_length prev j
  rw [h] at h64
  simp [String.length] at h64

lemma chainValid_append_singleton (evs : List AuditEvent) (g : String) (e : AuditEvent)
    (hvalid : chainValid g evs = true)
    (hprev : e.prevHash = chainTip g evs)
    (hhash : e.eventHash = compute_event_hash (chainTip g evs) e.payload.toJson) :
    chainValid g (evs ++ [e]) = true := by
  induction evs generalizing g with
  | nil =>
    simp only [chainTip] at hprev hhash
    simp [chainValid, hprev, hhash]
  | cons x xs ih =>
    simp only [chainTip] at hprev hhash
    simp only [chainValid, Bool.and_eq_true, beq_iff_eq] at hvalid
    obtain ⟨⟨h1, h2⟩, h3⟩ := hvalid
    simp only [List.cons_append, chainValid, Bool.and_eq_true, beq_iff_eq]
    exact ⟨⟨h1, h2⟩, ih x.eventHash h3 hprev hhash⟩

lemma chainValid_all_hash (evs : List AuditEvent) (g : String)
    (h : chainValid g evs = true) :
    ∀ e ∈ evs, e.eventHash = compute_event_hash e.prevHash e.payload.toJson := by
  induction evs generalizing g with
  | nil => intro e he; simp at he
  | cons x xs ih =>
    simp only [chainValid, Bool.and_eq_true, beq_iff_eq] at h
    obtain ⟨⟨h1, h2⟩, h3⟩ := h
    intro e he
    rcases List.mem_cons.mp he with he | he
    · subst he; rw [h2, h1]
    · exact ih x.eventHash h3 e he

lemma chainValid_head_prev (evs : List AuditEvent) (e : AuditEvent)
    (h : chainValid GENESIS_HASH evs = true) (hh : evs.head? = some e) :
    e.prevHash = GENESIS_HASH := by
  cases evs with
  | nil => simp at hh
  | cons x xs =>
    simp only [List.head?_cons, Option.some.injEq] at hh
    subst hh
    simp only [chainValid, Bool.and_eq_true, beq_iff_eq] at h
    exact h.1.1

lemma chainValid_recompute (evs : List AuditEvent) (g : String)
    (h : chainValid g evs = true) :
    recomputeHashes g (storedPayloads evs) = storedHashes evs := by
  induction evs generalizing g with
  | nil => rfl
  | cons x xs ih =>
    simp only [chainValid, Bool.and_eq_true, beq_iff_eq] at h
    obtain ⟨⟨h1, h2⟩, h3⟩ := h
    simp only [storedPayloads, storedHashes, List.map_cons, recomputeHashes]
    rw [← h2]
    have := ih x.eventHash h3
    simp only [storedPayloads, storedHashes] at this
    rw [this]

lemma last_event_hash_eq_chainTip (evs : List AuditEvent)
    (hne : ∀ e ∈ evs, e.eventHash ≠ "") :
    last_event_hash evs = chainTip GENESIS_HASH evs := by
  induction evs with
  | nil => rfl
  | cons x xs ih =>
    cases xs with
    | nil =>
      have hx : x.eventHash ≠ "" := hne x (by simp)
      simp [last_event_hash, chainTip, hx]
    | cons y ys =>
      have ih2 := ih (fun e he => hne e (List.mem_cons_of_mem _ he))
      show last_event_hash (x :: y :: ys) = chainTip GENESIS_HASH (x :: y :: ys)
      unfold last_event_hash
      rw [List.getLast?_cons_cons]
      have hmm : (match (y :: ys).getLast? with
            | none => GENESIS_HASH
            | some e => if e.eventHash == "" then GENESIS_HASH else e.eventHash) =
          last_event_hash (y :: ys) := rfl
      rw [hmm, ih2]
      rfl

lemma emit_preserves_chainValid (flag : Bool) (evs : List AuditEvent)
    (p : EventPayload) (flush : FlushOutcome)
    (h : chainValid GENESIS_HASH evs = true) :
    chainValid GENESIS_HASH (AuditBus.emit flag evs p flush).2 = true := by
  unfold AuditBus.emit
  cases flag with
  | false => simpa using h
  | true =>
    simp only [Bool.not_true, Bool.false_eq_true, if_false]
    split
    · simpa using h
    · cases flush with
      | ok =>
        simp only []
        rw [last_event_hash_eq_chainTip evs
          (fun e he => by
            rw [chainValid_all_hash evs GENESIS_HASH h e he]
            exact compute_event_hash_ne_empty _ _)]
        exact chainValid_append_singleton evs GENESIS_HASH _ h rfl rfl
      | operationalError => simpa using h
      | programmingError => simpa using h
      | otherError => simpa using h

lemma emitRun_chainValid (run : List (Bool × EventPayload × FlushOutcome))
    (evs : List AuditEvent) (h : chainValid GENESIS_HASH evs = true) :
    chainValid GENESIS_HASH (AuditBus.emitRun run evs) = true := by
  induction run generalizing evs with
  | nil => simpa [AuditBus.emitRun] using h
  | cons step rest ih =>
    obtain ⟨flag, p, flush⟩ := step
    exact ih _ (emit_preserves_chainValid flag evs p flush h)

lemma list_get?_set_ne {α : Type} (l : List α) (k i : Nat) (a : α) (h : i ≠ k) :
    (l.set k a).get? i = l.get? i := by
  induction l generalizing k i with
  | nil => simp
  | cons x xs ih =>
    cases k with
    | zero =>
      cases i with
      | zero => exact absurd rfl h
      | succ j => rfl
    | succ m =>
      cases i with
      | zero => rfl
      | succ j => exact ih m j (fun hh => h (by rw [hh]))

lemma list_get?_getD {α : Type} (l : List α) (i : Nat) (d : α) (h : i < l.length) :
    l.get? i = some (l.getD i d) := by
  induction l generalizing i with
  | nil => simp at h
  | cons x xs ih =>
    cases i with
    | zero => rfl
    | succ j => exact ih j (Nat.lt_of_succ_lt_succ (by simpa using h))

lemma recomputeHashes_length (ps : List EventPayload) :
    ∀ prev : String, (recomputeHashes prev ps).length = ps.length := by
  induction ps with
  | nil => intro prev; rfl
  | cons p rest ih => intro prev; simp [recomputeHashes, ih]

lemma recomputeHashes_get?_succ (ps : List EventPayload) (prev : String) (i : Nat)
    (p : EventPayload) (hp : ps.get? (i + 1) = some p) :
    (recomputeHashes prev ps).get? (i + 1) =
      some (compute_event_hash ((recomputeHashes prev ps).getD i "") p.toJson) := by
  induction ps generalizing prev i with
  | nil => simp at hp
  | cons q rest ih =>
    cases i with
    | zero =>
      cases rest with
      | nil => simp at hp
      | cons r t =>
        simp only [List.get?] at hp
        have hr : r = p := by simpa using hp
        subst hr
        simp [recomputeHashes]
    | succ j =>
      have hp2 : rest.get? (j + 1) = some p := hp
      have := ih (compute_event_hash prev q.toJson) j hp2
      simpa [recomputeHashes] using this

/-- C3: for every emission sequence, the audit table it produces is a
valid hash chain: the first stored record's prev_hash is the genesis
value of 64 zero hex characters, every stored event_hash equals
compute_event_hash(prev_hash, canonical payload), and replaying from
genesis over the stored fields reproduces every stored event_hash.
Tamper evidence: mutating the stored fields of event k makes the
recomputed chain mismatch the stored hashes at every index ≥ k, under
the explicit per-step SHA-256 no-collision hypotheses (the mutated
record hashes differently at k, and unequal running hashes never
collide at the following steps); the witness discharges both
hypotheses by computing the concrete digests. -/
theorem audit_chain_replay_and_tamper_evidence
    (run : List (Bool × EventPayload × FlushOutcome)) :
    chainValid GENESIS_HASH (emittedEvents run) = true ∧
    (∀ e, (emittedEvents run).head? = some e → e.prevHash = GENESIS_HASH) ∧
    (∀ e ∈ emittedEvents run,
      e.eventHash = compute_event_hash e.prevHash e.payload.toJson) ∧
    recomputeHashes GENESIS_HASH (storedPayloads (emittedEvents run)) =
      storedHashes (emittedEvents run) ∧
    (∀ k p', k < (emittedEvents run).length →
      (recomputeHashes GENESIS_HASH
          ((storedPayloads (emittedEvents run)).set k p')).get? k ≠
        (storedHashes (emittedEvents run)).get? k →
      (∀ i, i < (emittedEvents run).length → k < i →
        (recomputeHashes GENESIS_HASH
            ((storedPayloads (emittedEvents run)).set k p')).getD (i - 1) "" ≠
          (recomputeHashes GENESIS_HASH
            (storedPayloads (emittedEvents run))).getD (i - 1) "" →
        compute_event_hash
            ((recomputeHashes GENESIS_HASH
                ((storedPayloads (emittedEvents run)).set k p')).getD (i - 1) "")
            ((storedPayloads (emittedEvents run)).getD i default).toJson ≠
          compute_event_hash
            ((recomputeHashes GENESIS_HASH
                (storedPayloads (emittedEvents run))).getD (i - 1) "")
            ((storedPayloads (emittedEvents run)).getD i default).toJson) →
      ∀ i, k ≤ i → i < (emittedEvents run).length →
        (recomputeHashes GENESIS_HASH
            ((storedPayloads (emittedEvents run)).set k p')).get? i ≠
          (storedHashes (emittedEvents run)).get? i) := by
  have hchain : chainValid GENESIS_HASH (emittedEvents run) = true :=
    emitRun_chainValid run [] rfl
  have hrec := chainValid_recompute (emittedEvents run) GENESIS_HASH hchain
  refine ⟨hchain, fun e he => chainValid_head_prev _ e hchain he,
    chainValid_all_hash _ _ hchain, hrec, ?_⟩
  intro k p' hk h1 h2
  set evs := emittedEvents run with hevs
  set ps := storedPayloads evs with hps
  set qs := ps.set k p' with hqs
  intro i hki
  induction i, hki using Nat.le_induction with
  | base => intro _; exact h1
  | succ n hn ihp =>
    intro hiN
    have hnN : n < evs.length := by omega
    have ih := ihp hnN
    have hlp : ps.length = evs.length := by simp [hps, storedPayloads]
    have hlq : qs.length = ps.length := by simp [hqs]
    have hqget : qs.get? (n + 1) = some (ps.getD (n + 1) default) := by
      rw [hqs, list_get?_set_ne _ _ _ _ (by omega)]
      exact list_get?_getD _ _ _ (by omega)
    have hpget : ps.get? (n + 1) = some (ps.getD (n + 1) default) :=
      list_get?_getD _ _ _ (by omega)
    have hmut := recomputeHashes_get?_succ qs GENESIS_HASH n _ hqget
    have horig := recomputeHashes_get?_succ ps GENESIS_HASH n _ hpget
    rw [← hrec, hmut, horig]
    intro hcontra
    have hab := Option.some.inj hcontra
    have hdiffn : (recomputeHashes GENESIS_HASH qs).getD n "" ≠
        (recomputeHashes GENESIS_HASH ps).getD n "" := by
      intro heq
      apply ih
      rw [← hrec,
        list_get?_getD (recomputeHashes GENESIS_HASH qs) n ""
          (by rw [recomputeHashes_length]; omega),
        list_get?_getD (recomputeHashes GENESIS_HASH ps) n ""
          (by rw [recomputeHashes_length]; omega),
        heq]
    exact h2 (n + 1) hiN (by omega) hdiffn hab

set_option maxHeartbeats 8000000 in
/-- C3 witness: two concrete emissions; tampering with the action field
of the first stored record makes the recomputed chain mismatch the
stored event_hash at the second record (index 1 ≥ k = 0), the per-step
no-collision hypotheses being verified by computing the digests. -/
theorem audit_chain_replay_and_tamper_evidence_witness :
    (recomputeHashes GENESIS_HASH
        ((storedPayloads (emittedEvents demoRun)).set 0 demoPayloadTampered)).get? 1 ≠
      (storedHashes (emittedEvents demoRun)).get? 1 :=
  (audit_chain_replay_and_tamper_evidence demoRun).2.2.2.2 0 demoPayloadTampered
    (by decide) (by decide) (by decide) 1 (by decide) (by decide)

end Cloud
